import Mathlib

/-!
Control page of the transcription service (`app/static/control.js`).

A shallow embedding of the page script: the four command buttons, the shared
status line, the live transcript view and the reconnecting socket.

* JavaScript values are the values `JSON.parse` can produce (plus `undefined`,
  which property reads produce). A string is a sequence of Unicode scalar
  values.
* The page (the elements the script looks up once, the pending requests, the
  sockets and the pending timers) is an explicit `State`.
* A handler is a function from the state to a `Completion`: it either finishes
  normally or is cut short by an exception, and in both cases the state it has
  reached so far is kept.
* An `async` handler is split at its `await`: the part before it runs when the
  button is clicked, the part after it runs when the request settles.
-/

namespace Control

/-! ## JavaScript values -/

/-- Exceptions the script can meet. -/
inductive JSError where
  | TypeError
  | SyntaxError
  deriving DecidableEq, Repr

/-- A JavaScript value as `JSON.parse` builds it. A number is carried as its
string rendering (`String(n)`): the script only tests numbers for truthiness
and concatenates them, and zero is the only number rendered `0`. An object is
the list of its own properties. -/
inductive JSVal where
  | undefined
  | null
  | bool (b : Bool)
  | num (shown : String)
  | str (s : String)
  | arr (xs : List JSVal)
  | obj (fields : List (String × JSVal))

namespace JSVal

/-- Own property lookup in an object literal. -/
def lookup (name : String) : List (String × JSVal) → Option JSVal
  | [] => none
  | (k, v) :: rest => if k = name then some v else lookup name rest

/-- Property read `v.name`, for the names the script reads (`status`,
`message`, `type`, `items`, `text`), none of which a built-in prototype
defines: reading them off `null` or `undefined` throws, off any other
non-object gives `undefined`. -/
def get (v : JSVal) (name : String) : Except JSError JSVal :=
  match v with
  | undefined => .error .TypeError
  | null => .error .TypeError
  | obj fields =>
    match lookup name fields with
    | some x => .ok x
    | none => .ok undefined
  | _ => .ok undefined

/-- Truthiness (`Boolean(v)`, the left operand of `||`, the operand of `!`). -/
def truthy : JSVal → Bool
  | undefined => false
  | null => false
  | bool b => b
  | num shown => shown != "0"
  | str s => s != ""
  | arr _ => true
  | obj _ => true

/-- Strict equality with a string literal: `v === 'lit'`. -/
def strictEq (v : JSVal) (lit : String) : Bool :=
  match v with
  | str s => s == lit
  | _ => false

/-- The operator `a || b`. -/
def or (a b : JSVal) : JSVal := if a.truthy then a else b

mutual
/-- String conversion (`ToString`), as `+` with a string and `join` apply it.
A parsed object has no callable `toString` of its own, so an own property of
that name hides the inherited one and the conversion throws. -/
def toStr : JSVal → Except JSError String
  | undefined => .ok "undefined"
  | null => .ok "null"
  | bool true => .ok "true"
  | bool false => .ok "false"
  | num shown => .ok shown
  | str s => .ok s
  | arr xs =>
    match elemStrs xs with
    | .ok parts => .ok (String.intercalate "," parts)
    | .error e => .error e
  | obj fields =>
    match lookup "toString" fields with
    | some _ => .error .TypeError
    | none => .ok "[object Object]"
termination_by structural v => v
/-- The strings `join` puts between separators: `null` and `undefined`
elements count as empty. -/
def elemStrs : List JSVal → Except JSError (List String)
  | [] => .ok []
  | x :: rest =>
    match (match x with
           | undefined => Except.ok ""
           | null => Except.ok ""
           | _ => toStr x : Except JSError String) with
    | .error e => .error e
    | .ok a =>
      match elemStrs rest with
      | .error e => .error e
      | .ok parts => .ok (a :: parts)
termination_by structural xs => xs
end

end JSVal

open JSVal

/-- Method `Array.prototype.join(sep)`. -/
def Array_join (sep : String) (xs : List JSVal) : Except JSError String :=
  match elemStrs xs with
  | .ok parts => .ok (String.intercalate sep parts)
  | .error e => .error e

/-- Method `Array.prototype.map(f)` for a callback that may throw. -/
def Array_map (f : JSVal → Except JSError JSVal) : List JSVal → Except JSError (List JSVal)
  | [] => .ok []
  | x :: rest =>
    match f x with
    | .error e => .error e
    | .ok y =>
      match Array_map f rest with
      | .error e => .error e
      | .ok ys => .ok (y :: ys)

/-- White space and line terminators, the code points `trim` strips. -/
def isTrimChar (c : Char) : Bool :=
  let n := c.toNat
  n = 0x09 || n = 0x0A || n = 0x0B || n = 0x0C || n = 0x0D || n = 0x20 || n = 0xA0
    || n = 0x1680 || (0x2000 ≤ n && n ≤ 0x200A) || n = 0x2028 || n = 0x2029
    || n = 0x202F || n = 0x205F || n = 0x3000 || n = 0xFEFF

/-- Method `String.prototype.trim()`. -/
def String_trim (t : String) : String :=
  ⟨((t.data.dropWhile isTrimChar).reverse.dropWhile isTrimChar).reverse⟩

/-- The expression `msg.items.map(it => it.text).filter(Boolean).join(' ').trim()`
for a given `msg.items`: calling `map` on anything but an array throws. -/
def segmentsText (items : JSVal) : Except JSError String :=
  match items with
  | arr xs =>
    match Array_map (fun it => it.get "text") xs with
    | .error e => .error e
    | .ok texts =>
      match Array_join " " (texts.filter truthy) with
      | .error e => .error e
      | .ok joined => .ok (String_trim joined)
  | _ => .error .TypeError

/-! ## The page -/

/-- The four commands, one per button. -/
inductive Cmd where
  | start
  | stop
  | after
  | summ
  deriving DecidableEq, Repr

/-- States of a socket (`readyState`). -/
inductive ReadyState where
  | connecting
  | opened
  | closed
  deriving DecidableEq, Repr

/-- A `WebSocket` object created by `connectWS`. -/
structure Conn where
  url : String
  readyState : ReadyState
  deriving DecidableEq, Repr

/-- The element `#liveText`: the text of its child entries, and, when it has a
parent element, how many entries the parent had been scrolled past when its
`scrollTop` was last set to its `scrollHeight`. -/
structure LiveEl where
  entries : List String
  box : Option Nat
  deriving DecidableEq, Repr

/-- Everything the script reads or writes. An element the page does not have
is `none` (`querySelector` gave `null`). A button is its `disabled` flag. -/
structure State where
  /-- Element `#status`: its `textContent`. -/
  statusEl : Option String
  /-- Element `#btnStart`: its `disabled` flag. -/
  startBtn : Option Bool
  /-- Element `#btnStop`: its `disabled` flag. -/
  stopBtn : Option Bool
  /-- Whether the page has `#btnAfter`. -/
  afterBtn : Bool
  /-- Whether the page has `#btnSumm`. -/
  summBtn : Bool
  /-- Element `#liveText`. -/
  liveEl : Option LiveEl
  /-- Element `#chromaText`: its `textContent`. -/
  chromaEl : Option String
  /-- Field `location.protocol`. -/
  protocol : String
  /-- Field `location.host`. -/
  host : String
  /-- Navigations started by assigning `window.location.href`, oldest first. -/
  navigations : List String
  /-- Errors the script passed to `console.error`, oldest first. -/
  console : List JSError
  /-- Requests sent with `fetch` that have not settled yet. -/
  inflight : List Cmd
  /-- Sockets created so far, oldest first. -/
  conns : List Conn
  /-- Pending `setTimeout` timers, each with its delay in milliseconds; the
  callback of every one of them is `connectWS`. -/
  timers : List Nat
  deriving DecidableEq, Repr

/-- How a handler body ends: normally, or by an exception. Either way it hands
on the state it has reached. -/
inductive Completion (α : Type) where
  | normal (value : α) (s : State)
  | abrupt (err : JSError) (s : State)

/-- A piece of script acting on the page. -/
def JS (α : Type) : Type := State → Completion α

namespace JS

/-- Finish normally with a value. -/
def ret {α : Type} (a : α) : JS α := fun s => .normal a s

/-- Sequencing: an exception in the first part skips the second. -/
def seq {α β : Type} (x : JS α) (f : α → JS β) : JS β := fun s =>
  match x s with
  | .normal a s1 => f a s1
  | .abrupt e s1 => .abrupt e s1

/-- An expression that may throw, evaluated without touching the page. -/
def eval {α : Type} (x : Except JSError α) : JS α := fun s =>
  match x with
  | .ok a => .normal a s
  | .error e => .abrupt e s

/-- A state update that cannot throw. -/
def modify (f : State → State) : JS Unit := fun s => .normal () (f s)

/-- Statement `try { body } catch (err) { handler }`. -/
def tryCatch (body : JS Unit) (handler : JSError → JS Unit) : JS Unit := fun s =>
  match body s with
  | .normal a s1 => .normal a s1
  | .abrupt e s1 => handler e s1

end JS

instance : Monad JS where
  pure := JS.ret
  bind := JS.seq

/-- The state a handler leaves behind, however it ended. -/
def Completion.state {α : Type} : Completion α → State
  | .normal _ s => s
  | .abrupt _ s => s

/-- Whether a handler ended without an exception escaping it. -/
def Completion.isNormal {α : Type} : Completion α → Bool
  | .normal _ _ => true
  | .abrupt _ _ => false

/-! ## The script -/

/-- Value of the `textContent` setter argument: `null` and `undefined` give the
empty string, anything else is converted to a string. -/
def textContentOf (v : JSVal) : Except JSError String :=
  match v with
  | undefined => .ok ""
  | null => .ok ""
  | _ => v.toStr

/-- Source: `function setStatus(msg){ if(statusEl) statusEl.textContent = msg; }` -/
def setStatus (msg : JSVal) : JS Unit := fun s =>
  match s.statusEl with
  | some _ =>
    match textContentOf msg with
    | .ok t => .normal () { s with statusEl := some t }
    | .error e => .abrupt e s
  | none => .normal () s

/-- Source: `function toggle(run){ if(startBtn && stopBtn){ startBtn.disabled = run;
stopBtn.disabled = !run; } }` -/
def toggle (run : Bool) : JS Unit := fun s =>
  match s.startBtn, s.stopBtn with
  | some _, some _ => .normal () { s with startBtn := some run, stopBtn := some (!run) }
  | _, _ => .normal () s

/-- Call `console.error(err)`. -/
def console_error (err : JSError) : JS Unit :=
  JS.modify fun s => { s with console := s.console ++ [err] }

/-- Call `fetch(path, {method:'POST'})`: the request is sent and a promise comes
back; nothing is thrown here, a failure shows when the promise settles. -/
def fetch (c : Cmd) : JS Unit :=
  JS.modify fun s => { s with inflight := s.inflight ++ [c] }

/-- What becomes of a request: `fetch` rejects (no connection), or it resolves
and `res.json()` rejects (the body is not JSON), or both resolve to a value. -/
inductive FetchOutcome where
  | rejected
  | badBody
  | body (js : JSVal)

/-- The two awaits `const res = await fetch(..); const js = await res.json();`
once the request has settled. -/
def awaitJson : FetchOutcome → Except JSError JSVal
  | .rejected => .error .TypeError
  | .badBody => .error .SyntaxError
  | .body js => .ok js

/-- String concatenation `'lit' + v`. -/
def concatVal (lit : String) (v : JSVal) : Except JSError String :=
  match v.toStr with
  | .ok t => .ok (lit ++ t)
  | .error e => .error e

/-- Click on `#btnStart`: the handler up to its first `await`. -/
def startBtn_click : JS Unit :=
  JS.tryCatch
    (do
      setStatus (str "Starter…")
      fetch .start)
    (fun err => do
      setStatus (str "Feil ved start")
      console_error err)

/-- The rest of the `#btnStart` handler, run when the `/start` request has
settled. -/
def startBtn_settled (o : FetchOutcome) : JS Unit :=
  JS.tryCatch
    (do
      let js ← JS.eval (awaitJson o)
      let status ← JS.eval (js.get "status")
      if status.strictEq "started" || status.strictEq "already_running" then do
        toggle true
        setStatus (str "I gang")
      else do
        let shown ← JS.eval (concatVal "Kunne ikke starte (" (status.or (str "ukjent")))
        setStatus (str (shown ++ ")")))
    (fun err => do
      setStatus (str "Feil ved start")
      console_error err)

/-- Click on `#btnStop`: the handler up to its first `await`. -/
def stopBtn_click : JS Unit :=
  JS.tryCatch
    (do
      setStatus (str "Stopper…")
      fetch .stop)
    (fun err => do
      setStatus (str "Feil ved stopp")
      console_error err)

/-- The rest of the `#btnStop` handler, run when the `/stop` request has
settled. -/
def stopBtn_settled (o : FetchOutcome) : JS Unit :=
  JS.tryCatch
    (do
      let js ← JS.eval (awaitJson o)
      let status ← JS.eval (js.get "status")
      if status.strictEq "stopped" then do
        toggle false
        setStatus (str "Stoppet")
      else do
        let shown ← JS.eval (concatVal "Ikke i gang (" (status.or (str "ukjent")))
        setStatus (str (shown ++ ")")))
    (fun err => do
      setStatus (str "Feil ved stopp")
      console_error err)

/-- Click on `#btnAfter`: the whole handler. The promise `fetch` returns is
dropped, so nothing of this handler is left to run when the request settles. -/
def afterBtn_click : JS Unit :=
  JS.tryCatch
    (do
      setStatus (str "Starter transkribering av storfil…")
      fetch .after)
    (fun err => do
      setStatus (str "Feil ved transkribering")
      console_error err)

/-- Click on `#btnSumm`: the handler up to its first `await`. -/
def summBtn_click : JS Unit :=
  JS.tryCatch
    (do
      setStatus (str "Lager møtereferat…")
      fetch .summ)
    (fun err => do
      setStatus (str "Feil ved referat")
      console_error err)

/-- Assignment `window.location.href = url`. -/
def navigate (url : String) : JS Unit :=
  JS.modify fun s => { s with navigations := s.navigations ++ [url] }

/-- The rest of the `#btnSumm` handler, run when the `/summarize` request has
settled. -/
def summBtn_settled (o : FetchOutcome) : JS Unit :=
  JS.tryCatch
    (do
      let js ← JS.eval (awaitJson o)
      let status ← JS.eval (js.get "status")
      if status.strictEq "ok" then do
        setStatus (str "Referat klart. Starter nedlasting...")
        navigate "/download/md"
      else do
        let message ← JS.eval (js.get "message")
        let shown ← JS.eval (concatVal "Kunne ikke lage referat: " (message.or (str "Ukjent feil")))
        setStatus (str shown))
    (fun err => do
      setStatus (str "Feil ved referat")
      console_error err)

/-- What runs when a request of the given command settles. Nothing waits for
the promise of the `/after` request, so nothing of the script runs for it. -/
def settled : Cmd → FetchOutcome → JS Unit
  | .start, o => startBtn_settled o
  | .stop, o => stopBtn_settled o
  | .after, _ => pure ()
  | .summ, o => summBtn_settled o

/-! ### The live channel -/

/-- An inbound frame, told apart by what `JSON.parse(ev.data)` makes of it. -/
inductive Frame where
  | malformed
  | json (v : JSVal)

/-- Call `JSON.parse(ev.data)`. -/
def JSON_parse : Frame → Except JSError JSVal
  | .malformed => .error .SyntaxError
  | .json v => .ok v

/-- Source: `if(liveEl){ const div = ..; div.textContent = text; liveEl.appendChild(div);
const box = liveEl.parentElement; if(box) box.scrollTop = box.scrollHeight; }` -/
def appendLive (text : String) : JS Unit :=
  JS.modify fun s =>
    match s.liveEl with
    | some live =>
      let entries := live.entries ++ [text]
      { s with liveEl := some ⟨entries, live.box.map fun _ => entries.length⟩ }
    | none => s

/-- Source: `if(chromaEl){ chromaEl.textContent = text; }` -/
def setChroma (text : String) : JS Unit :=
  JS.modify fun s =>
    match s.chromaEl with
    | some _ => { s with chromaEl := some text }
    | none => s

/-- Source: `if(msg.type === 'status'){ setStatus(msg.text); }` -/
def statusBranch (msg : JSVal) : JS Unit := do
  let ty ← JS.eval (msg.get "type")
  if ty.strictEq "status" then do
    let text ← JS.eval (msg.get "text")
    setStatus text
  else
    pure ()

/-- The handler `ws.onmessage`. The early `return` of the segments branch is the
branch that does nothing more. -/
def ws_onmessage (data : Frame) : JS Unit :=
  JS.tryCatch
    (do
      let msg ← JS.eval (JSON_parse data)
      let ty ← JS.eval (msg.get "type")
      if ty.strictEq "segments" then do
        let items ← JS.eval (msg.get "items")
        let text ← JS.eval (segmentsText items)
        if text = "" then
          pure ()
        else do
          appendLive text
          setChroma text
          statusBranch msg
      else
        statusBranch msg)
    (fun _ => pure ())

/-- The delay of the reconnect timer, in milliseconds. -/
def reconnectDelay : Nat := 1500

/-- Call `setTimeout(connectWS, delay)`. -/
def setTimeout (delay : Nat) : JS Unit :=
  JS.modify fun s => { s with timers := s.timers ++ [delay] }

/-- The handler `ws.onclose`. -/
def ws_onclose : JS Unit := setTimeout reconnectDelay

/-- Source: `function connectWS()`: a new socket to `/ws` on the host of the page,
secure when the page is; both handlers are set before the call returns. The page
is served over http or https, so the address is well formed. -/
def connectWS : JS Unit :=
  JS.modify fun s =>
    let proto := if s.protocol = "https:" then "wss" else "ws"
    { s with conns := s.conns ++ [⟨proto ++ "://" ++ s.host ++ "/ws", .connecting⟩] }

/-- The script body at page load, after the handlers are registered:
`if(liveEl || chromaEl || statusEl){ connectWS(); }` -/
def pageLoad : JS Unit := fun s =>
  if s.liveEl.isSome || s.chromaEl.isSome || s.statusEl.isSome then connectWS s
  else .normal () s

/-! ## The event loop -/

/-- What the browser can deliver to the script. -/
inductive Event where
  | click (c : Cmd)
  | settle (c : Cmd) (o : FetchOutcome)
  | wsOpen (i : Nat)
  | wsMessage (i : Nat) (data : Frame)
  | wsClose (i : Nat)
  | timeout (k : Nat)

/-- Whether socket `i` exists and is in one of the given states. -/
def connIn (s : State) (i : Nat) (states : List ReadyState) : Bool :=
  match s.conns[i]? with
  | some c => states.contains c.readyState
  | none => false

/-- Put socket `i` in a new state. -/
def setReadyState (i : Nat) (r : ReadyState) (s : State) : State :=
  { s with conns := s.conns.modify (fun c => { c with readyState := r }) i }

/-- One turn of the event loop. An event the browser cannot deliver in the
state (a click on a button the page lacks, the settling of a request that was
not sent, a frame on a socket that is not open, the close of a socket that is
already closed, a timer that is not pending) changes nothing. A handler cut
short by an exception leaves the state it had reached. A browser delivers no
click to a disabled button; the loop lets such a click through, so what holds
of every run here holds of every run in a browser. -/
def step (e : Event) (s : State) : State :=
  match e with
  | .click .start => if s.startBtn.isSome then (startBtn_click s).state else s
  | .click .stop => if s.stopBtn.isSome then (stopBtn_click s).state else s
  | .click .after => if s.afterBtn then (afterBtn_click s).state else s
  | .click .summ => if s.summBtn then (summBtn_click s).state else s
  | .settle c o =>
    if c ∈ s.inflight then (settled c o { s with inflight := s.inflight.erase c }).state else s
  | .wsOpen i =>
    if connIn s i [.connecting] then setReadyState i .opened s else s
  | .wsMessage i data =>
    if connIn s i [.opened] then (ws_onmessage data s).state else s
  | .wsClose i =>
    if connIn s i [.connecting, .opened] then (ws_onclose (setReadyState i .closed s)).state else s
  | .timeout k =>
    if k < s.timers.length then (connectWS { s with timers := s.timers.eraseIdx k }).state else s

/-- The state after a sequence of events. -/
def run (es : List Event) (s : State) : State :=
  es.foldl (fun acc e => step e acc) s

/-! ## Observations on the page -/

/-- RunState as the page holds it: `toggle(run)` stores `run` in the `disabled`
flag of the start button. -/
def RunState (s : State) : Option Bool := s.startBtn

/-- The start button is there and can be clicked. -/
def startEnabled (s : State) : Prop := s.startBtn = some false

/-- The stop button is there and can be clicked. -/
def stopEnabled (s : State) : Prop := s.stopBtn = some false

instance (s : State) : Decidable (startEnabled s) :=
  inferInstanceAs (Decidable (s.startBtn = some false))

instance (s : State) : Decidable (stopEnabled s) :=
  inferInstanceAs (Decidable (s.stopBtn = some false))

/-- That one string occurs inside another. -/
def embeds (whole part : String) : Prop := ∃ before after, whole = before ++ part ++ after

/-- A page with every element, nothing running, not yet connected. -/
def samplePage : State where
  statusEl := some "Klar"
  startBtn := some false
  stopBtn := some true
  afterBtn := true
  summBtn := true
  liveEl := some { entries := [], box := some 0 }
  chromaEl := some ""
  protocol := "http:"
  host := "localhost:8000"
  navigations := []
  console := []
  inflight := []
  conns := []
  timers := []

/-! ## Notions the statements use -/

/-- The page after `setStatus` with a string. -/
def withStatus (m : String) (s : State) : State :=
  match s.statusEl with
  | some _ => { s with statusEl := some m }
  | none => s

/-- The page after `toggle`. -/
def toggled (r : Bool) (s : State) : State :=
  match s.startBtn, s.stopBtn with
  | some _, some _ => { s with startBtn := some r, stopBtn := some (!r) }
  | _, _ => s

/-- What a user sees of the page: the status line, the two buttons, the
transcript and the latest utterance. -/
def observable (s : State) : Option String × Option Bool × Option Bool × Option LiveEl × Option String :=
  (s.statusEl, s.startBtn, s.stopBtn, s.liveEl, s.chromaEl)

/-- A piece of script keeps a property of the page when the property holds of
the state it leaves, however it ends. -/
def JS.Keeps {α : Type} (P : State → Prop) (x : JS α) : Prop :=
  ∀ s, P s → P (x s).state

/-- A property of the page that only looks at the two buttons, the sockets and
the timers. -/
def Framed (P : State → Prop) : Prop :=
  ∀ s s1 : State, s1.startBtn = s.startBtn → s1.stopBtn = s.stopBtn → s1.conns = s.conns →
    s1.timers = s.timers → P s → P s1

/-- A socket that is connecting or open. -/
def Conn.isLive (c : Conn) : Bool := c.readyState != .closed

/-- How many sockets are connecting or open. -/
def liveCount (s : State) : Nat := s.conns.countP Conn.isLive

/-- The invariant of the channel: sockets that are connecting or open and
pending reconnect timers number at most one together. -/
def ChannelInv (s : State) : Prop := liveCount s + s.timers.length ≤ 1

/-- Both buttons are there and exactly one of them is disabled. -/
def Paired (s : State) : Prop := ∃ r, s.startBtn = some r ∧ s.stopBtn = some (!r)

/-- What the handler of a command makes of a reply: `some true` when it calls
`toggle(true)` (Start answered `started` or `already_running`), `some false`
when it calls `toggle(false)` (Stop answered `stopped`), `none` when it calls
neither. -/
def recognised (c : Cmd) (o : FetchOutcome) : Option Bool :=
  match c, o with
  | .start, .body js =>
    match js.get "status" with
    | .ok v => if v.strictEq "started" || v.strictEq "already_running" then some true else none
    | .error _ => none
  | .stop, .body js =>
    match js.get "status" with
    | .ok v => if v.strictEq "stopped" then some false else none
    | .error _ => none
  | _, _ => none

/-- The replies that reach a handler in the course of a run, oldest first: the
settlings of requests that were in flight. -/
def delivered : List Event → State → List (Cmd × FetchOutcome)
  | [], _ => []
  | .settle c o :: es, s =>
    if c ∈ s.inflight then (c, o) :: delivered es (step (.settle c o) s)
    else delivered es (step (.settle c o) s)
  | e :: es, s => delivered es (step e s)

/-- What the last recognised reply of a list indicates, if there is one. -/
def lastRecognised : List (Cmd × FetchOutcome) → Option Bool
  | [] => none
  | r :: rest =>
    match lastRecognised rest with
    | some x => some x
    | none => recognised r.1 r.2

/-- The reading of a reply in the words of the specification, whatever command
it answers: the tokens `started` and `already_running` indicate running, the
token `stopped` indicates not running, any other reply is not recognised. -/
def specToken (o : FetchOutcome) : Option Bool :=
  match o with
  | .body js =>
    match js.get "status" with
    | .ok v =>
      if v.strictEq "started" || v.strictEq "already_running" then some true
      else if v.strictEq "stopped" then some false
      else none
    | .error _ => none
  | _ => none

/-- What the last reply with one of the three tokens indicates, in the words of
the specification. -/
def specLast : List (Cmd × FetchOutcome) → Option Bool
  | [] => none
  | r :: rest =>
    match specLast rest with
    | some x => some x
    | none => specToken r.2

/-- An item of a `segments` event as the data model has it: its text is a
string (`some`), or it is `null` or absent (`none`). -/
def HasText (it : JSVal) (tx : Option String) : Prop :=
  match tx with
  | some t => it.get "text" = .ok (str t)
  | none => it.get "text" = .ok null ∨ it.get "text" = .ok undefined

/-- In the words of the specification, before trimming: the texts that are
there and not empty, in item order, joined with a single space. -/
def specJoined (texts : List (Option String)) : String :=
  String.intercalate " " (texts.filterMap fun tx =>
    match tx with
    | some t => if t = "" then none else some t
    | none => none)

/-- In the words of the specification: `t` is `joined` trimmed, that is `joined`
is `t` between two runs of white space and `t` neither starts nor ends with
white space. -/
def IsTrimOf (t joined : String) : Prop :=
  ∃ before after : List Char,
    joined.data = before ++ t.data ++ after ∧
    before.all isTrimChar = true ∧ after.all isTrimChar = true ∧
    t.data.head?.any isTrimChar = false ∧ t.data.getLast?.any isTrimChar = false

/-- Two Start clicks in a row, before either request has settled; the first
request is answered `started`, the second `stopped`. -/
def doubleStart : List Event :=
  [.click .start, .click .start,
    .settle .start (.body (obj [("status", str "started")])),
    .settle .start (.body (obj [("status", str "stopped")]))]

/-! ## Helper lemmas -/

theorem JS.bind_def {α β : Type} (x : JS α) (f : α → JS β) : x >>= f = JS.seq x f := rfl

theorem JS.pure_def {α : Type} (a : α) : (pure a : JS α) = JS.ret a := rfl

theorem setStatus_str (m : String) (s : State) :
    setStatus (str m) s = .normal () (withStatus m s) := by
  unfold setStatus withStatus
  cases h : s.statusEl <;> simp [textContentOf, toStr]

theorem toggle_eq (r : Bool) (s : State) : toggle r s = .normal () (toggled r s) := by
  unfold toggle toggled
  cases s.startBtn <;> cases s.stopBtn <;> rfl

@[simp] theorem withStatus_statusEl (m : String) (s : State) :
    (withStatus m s).statusEl = s.statusEl.map fun _ => m := by
  unfold withStatus
  cases h : s.statusEl <;> simp [h]

@[simp] theorem withStatus_startBtn (m : String) (s : State) :
    (withStatus m s).startBtn = s.startBtn := by
  unfold withStatus; cases s.statusEl <;> rfl

@[simp] theorem withStatus_stopBtn (m : String) (s : State) :
    (withStatus m s).stopBtn = s.stopBtn := by
  unfold withStatus; cases s.statusEl <;> rfl

@[simp] theorem withStatus_afterBtn (m : String) (s : State) :
    (withStatus m s).afterBtn = s.afterBtn := by
  unfold withStatus; cases s.statusEl <;> rfl

@[simp] theorem withStatus_summBtn (m : String) (s : State) :
    (withStatus m s).summBtn = s.summBtn := by
  unfold withStatus; cases s.statusEl <;> rfl

@[simp] theorem withStatus_liveEl (m : String) (s : State) :
    (withStatus m s).liveEl = s.liveEl := by
  unfold withStatus; cases s.statusEl <;> rfl

@[simp] theorem withStatus_chromaEl (m : String) (s : State) :
    (withStatus m s).chromaEl = s.chromaEl := by
  unfold withStatus; cases s.statusEl <;> rfl

@[simp] theorem withStatus_protocol (m : String) (s : State) :
    (withStatus m s).protocol = s.protocol := by
  unfold withStatus; cases s.statusEl <;> rfl

@[simp] theorem withStatus_host (m : String) (s : State) :
    (withStatus m s).host = s.host := by
  unfold withStatus; cases s.statusEl <;> rfl

@[simp] theorem withStatus_navigations (m : String) (s : State) :
    (withStatus m s).navigations = s.navigations := by
  unfold withStatus; cases s.statusEl <;> rfl

@[simp] theorem withStatus_console (m : String) (s : State) :
    (withStatus m s).console = s.console := by
  unfold withStatus; cases s.statusEl <;> rfl

@[simp] theorem withStatus_inflight (m : String) (s : State) :
    (withStatus m s).inflight = s.inflight := by
  unfold withStatus; cases s.statusEl <;> rfl

@[simp] theorem withStatus_conns (m : String) (s : State) :
    (withStatus m s).conns = s.conns := by
  unfold withStatus; cases s.statusEl <;> rfl

@[simp] theorem withStatus_timers (m : String) (s : State) :
    (withStatus m s).timers = s.timers := by
  unfold withStatus; cases s.statusEl <;> rfl

@[simp] theorem toggled_statusEl (r : Bool) (s : State) :
    (toggled r s).statusEl = s.statusEl := by
  unfold toggled; cases s.startBtn <;> cases s.stopBtn <;> rfl

@[simp] theorem toggled_afterBtn (r : Bool) (s : State) :
    (toggled r s).afterBtn = s.afterBtn := by
  unfold toggled; cases s.startBtn <;> cases s.stopBtn <;> rfl

@[simp] theorem toggled_summBtn (r : Bool) (s : State) :
    (toggled r s).summBtn = s.summBtn := by
  unfold toggled; cases s.startBtn <;> cases s.stopBtn <;> rfl

@[simp] theorem toggled_liveEl (r : Bool) (s : State) :
    (toggled r s).liveEl = s.liveEl := by
  unfold toggled; cases s.startBtn <;> cases s.stopBtn <;> rfl

@[simp] theorem toggled_chromaEl (r : Bool) (s : State) :
    (toggled r s).chromaEl = s.chromaEl := by
  unfold toggled; cases s.startBtn <;> cases s.stopBtn <;> rfl

@[simp] theorem toggled_protocol (r : Bool) (s : State) :
    (toggled r s).protocol = s.protocol := by
  unfold toggled; cases s.startBtn <;> cases s.stopBtn <;> rfl

@[simp] theorem toggled_host (r : Bool) (s : State) :
    (toggled r s).host = s.host := by
  unfold toggled; cases s.startBtn <;> cases s.stopBtn <;> rfl

@[simp] theorem toggled_navigations (r : Bool) (s : State) :
    (toggled r s).navigations = s.navigations := by
  unfold toggled; cases s.startBtn <;> cases s.stopBtn <;> rfl

@[simp] theorem toggled_console (r : Bool) (s : State) :
    (toggled r s).console = s.console := by
  unfold toggled; cases s.startBtn <;> cases s.stopBtn <;> rfl

@[simp] theorem toggled_inflight (r : Bool) (s : State) :
    (toggled r s).inflight = s.inflight := by
  unfold toggled; cases s.startBtn <;> cases s.stopBtn <;> rfl

@[simp] theorem toggled_conns (r : Bool) (s : State) :
    (toggled r s).conns = s.conns := by
  unfold toggled; cases s.startBtn <;> cases s.stopBtn <;> rfl

@[simp] theorem toggled_timers (r : Bool) (s : State) :
    (toggled r s).timers = s.timers := by
  unfold toggled; cases s.startBtn <;> cases s.stopBtn <;> rfl

theorem toggled_present (r a b : Bool) (s : State) (ha : s.startBtn = some a)
    (hb : s.stopBtn = some b) :
    (toggled r s).startBtn = some r ∧ (toggled r s).stopBtn = some (!r) := by
  unfold toggled; simp [ha, hb]

/-- The catch block of the four click handlers always ends normally. -/
theorem catch_eq (m : String) (e : JSError) (s : State) :
    (do setStatus (str m); console_error e : JS Unit) s
      = .normal () { withStatus m s with console := (withStatus m s).console ++ [e] } := by
  simp [JS.bind_def, JS.seq, setStatus_str, console_error, JS.modify]

theorem tryCatch_normal (body : JS Unit) (handler : JSError → JS Unit)
    (h : ∀ e s, (handler e s).isNormal = true) (s : State) :
    (JS.tryCatch body handler s).isNormal = true := by
  unfold JS.tryCatch
  cases hb : body s with
  | normal a s1 => simp [Completion.isNormal]
  | abrupt e s1 => simpa using h e s1

theorem startBtn_click_eq (s : State) :
    startBtn_click s
      = .normal () { withStatus "Starter…" s with
          inflight := (withStatus "Starter…" s).inflight ++ [Cmd.start] } := by
  simp [startBtn_click, JS.tryCatch, JS.bind_def, JS.seq, setStatus_str, fetch, JS.modify]

/-- The start handler on a running-indicating token. -/
theorem startBtn_settled_running (js v : JSVal) (s : State) (hget : js.get "status" = .ok v)
    (hv : v.strictEq "started" = true ∨ v.strictEq "already_running" = true) :
    startBtn_settled (.body js) s = .normal () (withStatus "I gang" (toggled true s)) := by
  simp [startBtn_settled, JS.tryCatch, JS.bind_def, JS.seq, JS.eval, awaitJson, hget, hv,
    toggle_eq, setStatus_str]

/-- The start handler on any other token that converts to a string. -/
theorem startBtn_settled_other (js v : JSVal) (shown : String) (s : State)
    (hget : js.get "status" = .ok v)
    (h1 : v.strictEq "started" = false) (h2 : v.strictEq "already_running" = false)
    (hshown : (v.or (str "ukjent")).toStr = .ok shown) :
    startBtn_settled (.body js) s
      = .normal () (withStatus ("Kunne ikke starte (" ++ shown ++ ")") s) := by
  simp [startBtn_settled, JS.tryCatch, JS.bind_def, JS.seq, JS.eval, awaitJson, hget, h1, h2,
    concatVal, hshown, setStatus_str]

/-- The start handler when an await or the property read throws. -/
theorem startBtn_settled_failed (o : FetchOutcome) (e : JSError) (s : State)
    (h : (match awaitJson o with
          | .ok js => js.get "status"
          | .error e => .error e) = .error e) :
    startBtn_settled o s
      = .normal () { withStatus "Feil ved start" s with
          console := (withStatus "Feil ved start" s).console ++ [e] } := by
  unfold startBtn_settled JS.tryCatch
  cases ho : awaitJson o with
  | error e1 =>
    rw [ho] at h
    simp at h
    subst h
    simp [JS.bind_def, JS.seq, JS.eval, ho, setStatus_str, console_error, JS.modify]
  | ok js =>
    rw [ho] at h
    simp at h
    simp [JS.bind_def, JS.seq, JS.eval, ho, h, setStatus_str, console_error, JS.modify]

/-- A Start click followed by the settling of its request. -/
theorem run_start_exchange (s : State) (a : Bool) (hstart : s.startBtn = some a)
    (o : FetchOutcome) :
    run [.click .start, .settle .start o] s
      = (startBtn_settled o { withStatus "Starter…" s with
          inflight := (s.inflight ++ [Cmd.start]).erase Cmd.start }).state := by
  simp [run, step, hstart, startBtn_click_eq, Completion.state, settled]

theorem summBtn_click_eq (s : State) :
    summBtn_click s
      = .normal () { withStatus "Lager møtereferat…" s with
          inflight := (withStatus "Lager møtereferat…" s).inflight ++ [Cmd.summ] } := by
  simp [summBtn_click, JS.tryCatch, JS.bind_def, JS.seq, setStatus_str, fetch, JS.modify]

/-- The summarize handler on a token other than `ok`, when the message (or its
default) converts to a string. -/
theorem summBtn_settled_other (js v w : JSVal) (shown : String) (s : State)
    (hget : js.get "status" = .ok v) (hv : v.strictEq "ok" = false)
    (hmsg : js.get "message" = .ok w)
    (hshown : (w.or (str "Ukjent feil")).toStr = .ok shown) :
    summBtn_settled (.body js) s
      = .normal () (withStatus ("Kunne ikke lage referat: " ++ shown) s) := by
  simp [summBtn_settled, JS.tryCatch, JS.bind_def, JS.seq, JS.eval, awaitJson, hget, hv, hmsg,
    concatVal, hshown, setStatus_str]

/-- A Summarize click followed by the settling of its request. -/
theorem run_summ_exchange (s : State) (hsumm : s.summBtn = true) (o : FetchOutcome) :
    run [.click .summ, .settle .summ o] s
      = (summBtn_settled o { withStatus "Lager møtereferat…" s with
          inflight := (s.inflight ++ [Cmd.summ]).erase Cmd.summ }).state := by
  simp [run, step, hsumm, summBtn_click_eq, Completion.state, settled]

theorem afterBtn_click_eq (s : State) :
    afterBtn_click s
      = .normal () { withStatus "Starter transkribering av storfil…" s with
          inflight := (withStatus "Starter transkribering av storfil…" s).inflight ++ [Cmd.after] } := by
  simp [afterBtn_click, JS.tryCatch, JS.bind_def, JS.seq, setStatus_str, fetch, JS.modify]

/-! ## The start handler -/

/-- C7: a Start click on a page with the status line and both buttons. No
exception escapes either part of the handler, whatever the request comes to.
When the result token is `started` or `already_running`, RunState becomes
running (start disabled, stop enabled) and the status is `I gang`. For any other
token the status is `Kunne ikke starte (` token `)`, which embeds the token,
with `ukjent` in its place when the token is empty, and the buttons are as
before. When the token is absent the status is `Kunne ikke starte (ukjent)` and
the buttons are as before. When the request is rejected, or its body is not JSON
or is `null`, the status is `Feil ved start` and the buttons are as before. -/
theorem start_click_contract (s : State) (old : String) (a b : Bool)
    (hstatus : s.statusEl = some old) (hstart : s.startBtn = some a)
    (hstop : s.stopBtn = some b) :
    ((startBtn_click s).isNormal = true ∧
      ∀ o s1, (startBtn_settled o s1).isNormal = true) ∧
    (∀ js tok, js.get "status" = .ok (str tok) →
      tok = "started" ∨ tok = "already_running" →
      RunState (run [.click .start, .settle .start (.body js)] s) = some true ∧
      (run [.click .start, .settle .start (.body js)] s).stopBtn = some false ∧
      (run [.click .start, .settle .start (.body js)] s).statusEl = some "I gang") ∧
    (∀ js tok, js.get "status" = .ok (str tok) →
      tok ≠ "started" → tok ≠ "already_running" →
      (run [.click .start, .settle .start (.body js)] s).statusEl
        = some ("Kunne ikke starte (" ++ (if tok = "" then "ukjent" else tok) ++ ")") ∧
      embeds ("Kunne ikke starte (" ++ (if tok = "" then "ukjent" else tok) ++ ")") tok ∧
      RunState (run [.click .start, .settle .start (.body js)] s) = RunState s ∧
      (run [.click .start, .settle .start (.body js)] s).stopBtn = s.stopBtn) ∧
    (∀ js, js.get "status" = .ok undefined →
      (run [.click .start, .settle .start (.body js)] s).statusEl
        = some "Kunne ikke starte (ukjent)" ∧
      RunState (run [.click .start, .settle .start (.body js)] s) = RunState s ∧
      (run [.click .start, .settle .start (.body js)] s).stopBtn = s.stopBtn) ∧
    (∀ o, o = .rejected ∨ o = .badBody ∨ o = .body null →
      (run [.click .start, .settle .start o] s).statusEl = some "Feil ved start" ∧
      RunState (run [.click .start, .settle .start o] s) = RunState s ∧
      (run [.click .start, .settle .start o] s).stopBtn = s.stopBtn) := by
  refine ⟨⟨?_, ?_⟩, ?_, ?_, ?_, ?_⟩
  · rw [startBtn_click_eq]; rfl
  · intro o s1
    exact tryCatch_normal _ _ (fun e s2 => by rw [catch_eq]; rfl) s1
  · intro js tok hget htok
    have hv : (str tok).strictEq "started" = true ∨ (str tok).strictEq "already_running" = true := by
      rcases htok with rfl | rfl
      · exact Or.inl (by decide)
      · exact Or.inr (by decide)
    rw [run_start_exchange s a hstart, startBtn_settled_running js _ _ hget hv]
    simp [Completion.state, RunState, hstatus, toggled, hstart, hstop]
  · intro js tok hget h1 h2
    have hs1 : (str tok).strictEq "started" = false := by simp [strictEq, h1]
    have hs2 : (str tok).strictEq "already_running" = false := by simp [strictEq, h2]
    have hshown : ((str tok).or (str "ukjent")).toStr
        = .ok (if tok = "" then "ukjent" else tok) := by
      by_cases h0 : tok = "" <;> simp [JSVal.or, truthy, toStr, h0]
    rw [run_start_exchange s a hstart, startBtn_settled_other js _ _ _ hget hs1 hs2 hshown]
    refine ⟨?_, ?_, ?_, ?_⟩
    · simp [Completion.state, withStatus_statusEl, hstatus]
    · by_cases h0 : tok = ""
      · subst h0
        exact ⟨"", "Kunne ikke starte (ukjent)", by decide⟩
      · rw [if_neg h0]
        exact ⟨"Kunne ikke starte (", ")", rfl⟩
    · simp [Completion.state, RunState]
    · simp [Completion.state]
  · intro js hget
    have hshown : ((undefined : JSVal).or (str "ukjent")).toStr = .ok "ukjent" := by rfl
    rw [run_start_exchange s a hstart,
      startBtn_settled_other js _ _ _ hget (by rfl) (by rfl) hshown]
    refine ⟨?_, ?_, ?_⟩
    · simp [Completion.state, withStatus_statusEl, hstatus]
    · simp [Completion.state, RunState]
    · simp [Completion.state]
  · intro o ho
    have hfail : ∃ e, (match awaitJson o with
          | .ok js => js.get "status"
          | .error e => .error e) = .error e := by
      rcases ho with rfl | rfl | rfl
      · exact ⟨_, rfl⟩
      · exact ⟨_, rfl⟩
      · exact ⟨_, rfl⟩
    obtain ⟨e, he⟩ := hfail
    rw [run_start_exchange s a hstart, startBtn_settled_failed o e _ he]
    simp [Completion.state, RunState, withStatus_statusEl, hstatus]

theorem start_click_contract_witness :
    RunState (run [.click .start,
        .settle .start (.body (obj [("status", str "already_running")]))] samplePage) = some true ∧
    (run [.click .start,
        .settle .start (.body (obj [("status", str "already_running")]))] samplePage).statusEl
      = some "I gang" :=
  have h := (start_click_contract samplePage "Klar" false true rfl rfl rfl).2.1
    (obj [("status", str "already_running")]) "already_running" rfl (Or.inr rfl)
  ⟨h.1, h.2.2⟩

/-! ## The summarize handler -/

/-- C6: a Summarize click on a page with the status line, answered with a
result whose status token is not `ok` (any value but the string `ok`, or no
status at all). When the result has a message `m`, the status becomes
`Kunne ikke lage referat: ` followed by `m` (by `Ukjent feil` when `m` is
empty), a string that contains `m`. When the message is absent, the status
becomes `Kunne ikke lage referat: Ukjent feil`, which contains `Ukjent feil`.
In both cases no navigation is started, so none to `/download/md`. -/
theorem summarize_failure_contract (s : State) (old : String)
    (hstatus : s.statusEl = some old) (hsumm : s.summBtn = true)
    (js v : JSVal) (hget : js.get "status" = .ok v) (hv : v.strictEq "ok" = false) :
    (∀ m, js.get "message" = .ok (str m) →
      (run [.click .summ, .settle .summ (.body js)] s).statusEl
        = some ("Kunne ikke lage referat: " ++ (if m = "" then "Ukjent feil" else m)) ∧
      embeds ("Kunne ikke lage referat: " ++ (if m = "" then "Ukjent feil" else m)) m ∧
      (run [.click .summ, .settle .summ (.body js)] s).navigations = s.navigations) ∧
    (js.get "message" = .ok undefined →
      (run [.click .summ, .settle .summ (.body js)] s).statusEl
        = some "Kunne ikke lage referat: Ukjent feil" ∧
      embeds "Kunne ikke lage referat: Ukjent feil" "Ukjent feil" ∧
      (run [.click .summ, .settle .summ (.body js)] s).navigations = s.navigations) := by
  refine ⟨?_, ?_⟩
  · intro m hmsg
    have hshown : ((str m).or (str "Ukjent feil")).toStr
        = .ok (if m = "" then "Ukjent feil" else m) := by
      by_cases h0 : m = "" <;> simp [JSVal.or, truthy, toStr, h0]
    rw [run_summ_exchange s hsumm, summBtn_settled_other js v _ _ _ hget hv hmsg hshown]
    refine ⟨?_, ?_, ?_⟩
    · simp [Completion.state, hstatus]
    · by_cases h0 : m = ""
      · subst h0
        exact ⟨"", "Kunne ikke lage referat: Ukjent feil", by decide⟩
      · rw [if_neg h0]
        exact ⟨"Kunne ikke lage referat: ", "", by simp⟩
    · simp [Completion.state]
  · intro hmsg
    have hshown : ((undefined : JSVal).or (str "Ukjent feil")).toStr = .ok "Ukjent feil" := by
      rfl
    rw [run_summ_exchange s hsumm, summBtn_settled_other js v _ _ _ hget hv hmsg hshown]
    refine ⟨?_, ?_, ?_⟩
    · simp [Completion.state, hstatus]
    · exact ⟨"Kunne ikke lage referat: ", "", by decide⟩
    · simp [Completion.state]

theorem summarize_failure_contract_witness :
    (run [.click .summ, .settle .summ
        (.body (obj [("status", str "fail"), ("message", str "x")]))] samplePage).statusEl
      = some "Kunne ikke lage referat: x" ∧
    (run [.click .summ, .settle .summ
        (.body (obj [("status", str "fail"), ("message", str "x")]))] samplePage).navigations
      = [] :=
  have h := (summarize_failure_contract samplePage "Klar" rfl rfl
    (obj [("status", str "fail"), ("message", str "x")]) (str "fail") rfl rfl).1 "x" rfl
  ⟨h.1, h.2.2⟩

/-! ## The transcribe-after handler -/

/-- C8: a TranscribeAfter click on a page with the status line. The handler ends
normally and the status already reads `Starter transkribering av storfil…` when
it returns, before the request has settled. Whatever becomes of the request
(any body, a body that is not JSON, a rejection), what the page shows after it
has settled is what it showed when the handler returned, which is also what it
shows if the request never settles; and in any later state the settling of an
`/after` request changes nothing of what the page shows. -/
theorem after_click_detached (s : State) (old : String)
    (hstatus : s.statusEl = some old) (hafter : s.afterBtn = true) :
    (afterBtn_click s).isNormal = true ∧
    (run [.click .after] s).statusEl = some "Starter transkribering av storfil…" ∧
    (∀ o, observable (run [.click .after, .settle .after o] s)
        = observable (run [.click .after] s)) ∧
    (∀ o s1, observable (step (.settle .after o) s1) = observable s1) := by
  have hsettle : ∀ o s1, observable (step (.settle .after o) s1) = observable s1 := by
    intro o s1
    by_cases h : Cmd.after ∈ s1.inflight <;>
      simp [step, h, settled, JS.pure_def, JS.ret, Completion.state, observable]
  refine ⟨?_, ?_, ?_, hsettle⟩
  · rw [afterBtn_click_eq]; rfl
  · simp [run, step, hafter, afterBtn_click_eq, Completion.state, hstatus]
  · intro o
    have : run [.click .after, .settle .after o] s
        = step (.settle .after o) (run [.click .after] s) := by
      simp [run]
    rw [this, hsettle]

theorem after_click_detached_witness :
    (run [.click .after] samplePage).statusEl = some "Starter transkribering av storfil…" ∧
    observable (run [.click .after, .settle .after .rejected] samplePage)
      = observable (run [.click .after] samplePage) :=
  have h := after_click_detached samplePage "Klar" rfl rfl
  ⟨h.2.1, h.2.2.1 .rejected⟩

/-! ## The message handler -/

theorem ws_onmessage_normal (data : Frame) (s : State) :
    (ws_onmessage data s).isNormal = true := by
  unfold ws_onmessage
  exact tryCatch_normal _ (fun _ => pure ()) (fun _ _ => rfl) s

theorem ws_onmessage_malformed (s : State) : ws_onmessage .malformed s = .normal () s := by
  simp [ws_onmessage, JS.tryCatch, JS.bind_def, JS.seq, JS.eval, JSON_parse, JS.pure_def, JS.ret]

/-- Items without a truthy text give no texts to join. -/
theorem Array_map_text_falsy (xs : List JSVal)
    (hall : ∀ it ∈ xs, it.get "text" = .ok (str "") ∨ it.get "text" = .ok null
      ∨ it.get "text" = .ok undefined) :
    ∃ texts, Array_map (fun it => it.get "text") xs = .ok texts ∧ texts.filter truthy = [] := by
  induction xs with
  | nil => exact ⟨[], rfl, rfl⟩
  | cons x rest ih =>
    obtain ⟨texts, hmap, hfilter⟩ := ih (fun it hit => hall it (List.mem_cons_of_mem _ hit))
    rcases hall x (List.mem_cons_self _ _) with h | h | h
    · exact ⟨str "" :: texts, by simp [Array_map, h, hmap], by simp [truthy, hfilter]⟩
    · exact ⟨null :: texts, by simp [Array_map, h, hmap], by simp [truthy, hfilter]⟩
    · exact ⟨undefined :: texts, by simp [Array_map, h, hmap], by simp [truthy, hfilter]⟩

theorem segmentsText_falsy (xs : List JSVal)
    (hall : ∀ it ∈ xs, it.get "text" = .ok (str "") ∨ it.get "text" = .ok null
      ∨ it.get "text" = .ok undefined) :
    segmentsText (arr xs) = .ok "" := by
  obtain ⟨texts, hmap, hfilter⟩ := Array_map_text_falsy xs hall
  simp only [segmentsText, hmap, hfilter]
  rfl

theorem dropWhile_append_all (p : Char → Bool) (pre rest : List Char)
    (h : pre.all p = true) : (pre ++ rest).dropWhile p = rest.dropWhile p := by
  induction pre with
  | nil => rfl
  | cons c cs ih =>
    simp only [List.all_cons, Bool.and_eq_true] at h
    simp [List.dropWhile_cons, h.1, ih h.2]

theorem dropWhile_all (p : Char → Bool) (l : List Char) (h : l.all p = true) :
    l.dropWhile p = [] := by
  have := dropWhile_append_all p l [] h
  simpa using this

theorem dropWhile_head_neg (p : Char → Bool) (l : List Char) (h : l.head?.any p = false) :
    l.dropWhile p = l := by
  cases l with
  | nil => rfl
  | cons c cs =>
    have hc : p c = false := by simpa using h
    simp [List.dropWhile_cons, hc]

/-- The way the script trims gives the trimmed string of the specification. -/
theorem String_trim_of_isTrimOf (t joined : String) (h : IsTrimOf t joined) :
    String_trim joined = t := by
  obtain ⟨before, after, hj, hb, ha, hhead, hlast⟩ := h
  unfold String_trim
  rw [hj, List.append_assoc, dropWhile_append_all _ _ _ hb]
  cases ht : t.data with
  | nil =>
    have : t = "" := by
      cases t
      simp only at ht
      subst ht
      rfl
    subst this
    simp [dropWhile_all _ _ ha]
  | cons c cs =>
    rw [ht] at hhead hlast
    have hc : isTrimChar c = false := by simpa using hhead
    have h1 : ((c :: cs) ++ after).dropWhile isTrimChar = (c :: cs) ++ after := by
      simp [List.dropWhile_cons, hc]
    rw [h1, List.reverse_append]
    have hrev : after.reverse.all isTrimChar = true := by
      simpa using ha
    rw [dropWhile_append_all _ _ _ hrev]
    have h2 : (c :: cs).reverse.head?.any isTrimChar = false := by
      rw [List.head?_reverse]
      exact hlast
    rw [dropWhile_head_neg _ _ h2, List.reverse_reverse, ← ht]

/-- Items typed as the data model has them: the texts the script reads, the
falsy ones dropped, convert to the texts that are there and not empty. -/
theorem Array_map_hasText (xs : List JSVal) (texts : List (Option String))
    (h : List.Forall₂ HasText xs texts) :
    ∃ vals, Array_map (fun it => it.get "text") xs = .ok vals ∧
      elemStrs (vals.filter truthy) = .ok (texts.filterMap fun tx =>
        match tx with
        | some t => if t = "" then none else some t
        | none => none) := by
  induction h with
  | nil => exact ⟨[], rfl, rfl⟩
  | @cons it tx xs1 texts1 hit _ ih =>
    obtain ⟨vals, hmap, hstrs⟩ := ih
    cases tx with
    | some t =>
      have hget : it.get "text" = .ok (str t) := hit
      refine ⟨str t :: vals, by simp [Array_map, hget, hmap], ?_⟩
      by_cases h0 : t = ""
      · simp [truthy, h0, hstrs]
      · simp [truthy, h0, elemStrs, toStr, hstrs]
    | none =>
      have hget : it.get "text" = .ok null ∨ it.get "text" = .ok undefined := hit
      rcases hget with hget | hget
      · exact ⟨null :: vals, by simp [Array_map, hget, hmap], by simp [truthy, hstrs]⟩
      · exact ⟨undefined :: vals, by simp [Array_map, hget, hmap], by simp [truthy, hstrs]⟩

/-- The expression of the script computes what the specification describes. -/
theorem segmentsText_spec (xs : List JSVal) (texts : List (Option String)) (t : String)
    (h : List.Forall₂ HasText xs texts) (ht : IsTrimOf t (specJoined texts)) :
    segmentsText (arr xs) = .ok t := by
  obtain ⟨vals, hmap, hstrs⟩ := Array_map_hasText xs texts h
  simp only [segmentsText, hmap, Array_join, hstrs]
  have := String_trim_of_isTrimOf t (specJoined texts) ht
  unfold specJoined at this
  rw [this]

/-- C3: a `segments` event on a page with the transcript and the latest
utterance views, whose items have texts that are strings, `null` or absent.
When the texts that are there and not empty, taken in item order, joined with a
single space and trimmed, give a non-empty string `t`, the handler ends
normally, the transcript is the old one with the single entry `t` added at its
end, the latest utterance is `t`, and the status line is untouched. -/
theorem segments_appended (s : State) (live : LiveEl) (latest : String)
    (hlive : s.liveEl = some live) (hchroma : s.chromaEl = some latest)
    (msg : JSVal) (xs : List JSVal) (texts : List (Option String)) (t : String)
    (htype : msg.get "type" = .ok (str "segments"))
    (hitems : msg.get "items" = .ok (arr xs))
    (htexts : List.Forall₂ HasText xs texts)
    (ht : IsTrimOf t (specJoined texts)) (hne : t ≠ "") :
    (ws_onmessage (.json msg) s).isNormal = true ∧
    (ws_onmessage (.json msg) s).state.liveEl.map LiveEl.entries = some (live.entries ++ [t]) ∧
    (ws_onmessage (.json msg) s).state.chromaEl = some t ∧
    (ws_onmessage (.json msg) s).state.statusEl = s.statusEl := by
  refine ⟨ws_onmessage_normal _ _, ?_⟩
  have hseg : (str "segments").strictEq "segments" = true := by decide
  have hst : (str "segments").strictEq "status" = false := by decide
  have hcode := segmentsText_spec xs texts t htexts ht
  simp [ws_onmessage, statusBranch, JS.tryCatch, JS.bind_def, JS.seq, JS.eval, JSON_parse,
    JS.pure_def, JS.ret, htype, hitems, hcode, hne, hseg, hst, appendLive, setChroma, JS.modify,
    hlive, hchroma, Completion.state]

theorem segments_appended_witness :
    ((ws_onmessage (.json (obj [("type", str "segments"),
        ("items", arr [obj [("text", str "hello")], obj [("text", str "world")]])]))
      samplePage).state.liveEl.map LiveEl.entries = some ([] ++ ["hello world"]) ∧
    (ws_onmessage (.json (obj [("type", str "segments"),
        ("items", arr [obj [("text", str "hello")], obj [("text", str "world")]])]))
      samplePage).state.chromaEl = some "hello world") ∧
    ((ws_onmessage (.json (obj [("type", str "segments"),
        ("items", arr [obj [("text", str "\t\x0b\x0c \u00a0\ufeffa")],
          obj [("text", str "")], obj [("text", null)], obj [],
          obj [("text", str "b\n\r\u2028\u2029\u3000\u1680\u2000\u200a\u202f\u205f")]])]))
      samplePage).state.liveEl.map LiveEl.entries = some ([] ++ ["a b"]) ∧
    (ws_onmessage (.json (obj [("type", str "segments"),
        ("items", arr [obj [("text", str "\t\x0b\x0c \u00a0\ufeffa")],
          obj [("text", str "")], obj [("text", null)], obj [],
          obj [("text", str "b\n\r\u2028\u2029\u3000\u1680\u2000\u200a\u202f\u205f")]])]))
      samplePage).state.chromaEl = some "a b") :=
  have h1 := segments_appended samplePage ⟨[], some 0⟩ "" rfl rfl
    (obj [("type", str "segments"),
      ("items", arr [obj [("text", str "hello")], obj [("text", str "world")]])])
    [obj [("text", str "hello")], obj [("text", str "world")]]
    [some "hello", some "world"] "hello world" rfl rfl
    (.cons rfl (.cons rfl .nil))
    ⟨[], [], by decide, by decide, by decide, by decide, by decide⟩ (by decide)
  have h2 := segments_appended samplePage ⟨[], some 0⟩ "" rfl rfl
    (obj [("type", str "segments"),
      ("items", arr [obj [("text", str "\t\x0b\x0c \u00a0\ufeffa")],
          obj [("text", str "")], obj [("text", null)], obj [],
          obj [("text", str "b\n\r\u2028\u2029\u3000\u1680\u2000\u200a\u202f\u205f")]])])
    [obj [("text", str "\t\x0b\x0c \u00a0\ufeffa")],
      obj [("text", str "")], obj [("text", null)], obj [],
      obj [("text", str "b\n\r\u2028\u2029\u3000\u1680\u2000\u200a\u202f\u205f")]]
    [some "\t\x0b\x0c \u00a0\ufeffa", some "", none, none,
      some "b\n\r\u2028\u2029\u3000\u1680\u2000\u200a\u202f\u205f"]
    "a b" rfl rfl
    (.cons rfl (.cons rfl (.cons (Or.inl rfl) (.cons (Or.inr rfl) (.cons rfl .nil)))))
    ⟨"\t\x0b\x0c \u00a0\ufeff".data,
      "\n\r\u2028\u2029\u3000\u1680\u2000\u200a\u202f\u205f".data,
      by decide, by decide, by decide, by decide, by decide⟩ (by decide)
  ⟨⟨h1.2.1, h1.2.2.1⟩, ⟨h2.2.1, h2.2.2.1⟩⟩

/-- C4: a `segments` event in which the text of every item is the empty string,
`null` or absent. The handler ends normally and leaves the whole page as it
was: nothing is added to the transcript, and the latest utterance and the
status line are unchanged. -/
theorem segments_empty_discarded (s : State) (msg : JSVal) (xs : List JSVal)
    (htype : msg.get "type" = .ok (str "segments"))
    (hitems : msg.get "items" = .ok (arr xs))
    (hall : ∀ it ∈ xs, it.get "text" = .ok (str "") ∨ it.get "text" = .ok null
      ∨ it.get "text" = .ok undefined) :
    ws_onmessage (.json msg) s = .normal () s := by
  have hseg : (str "segments").strictEq "segments" = true := by decide
  simp [ws_onmessage, JS.tryCatch, JS.bind_def, JS.seq, JS.eval, JSON_parse, JS.pure_def,
    JS.ret, htype, hitems, segmentsText_falsy xs hall, hseg]

theorem segments_empty_discarded_witness :
    ws_onmessage (.json (obj [("type", str "segments"),
        ("items", arr [obj [("text", str "")], obj [("text", null)], obj []])])) samplePage
      = .normal () samplePage :=
  segments_empty_discarded samplePage
    (obj [("type", str "segments"),
      ("items", arr [obj [("text", str "")], obj [("text", null)], obj []])])
    [obj [("text", str "")], obj [("text", null)], obj []] rfl rfl
    (by
      intro it hit
      simp only [List.mem_cons, List.mem_singleton, List.not_mem_nil, or_false] at hit
      rcases hit with rfl | rfl | rfl
      · exact Or.inl rfl
      · exact Or.inr (Or.inl rfl)
      · exact Or.inr (Or.inr rfl))

/-- C5: the message handler ends normally on every inbound frame, so no
exception escapes it; and on a frame that is not valid JSON it leaves the whole
page as it was, so the transcript, the latest utterance and the status line are
unchanged. -/
theorem onmessage_never_throws :
    (∀ data s, (ws_onmessage data s).isNormal = true) ∧
    (∀ s, ws_onmessage .malformed s = .normal () s) :=
  ⟨ws_onmessage_normal, ws_onmessage_malformed⟩

/-! ## Properties every handler keeps -/

theorem keeps_ret {α : Type} (P : State → Prop) (a : α) : JS.Keeps P (pure a : JS α) :=
  fun _ h => h

theorem keeps_eval {α : Type} (P : State → Prop) (x : Except JSError α) :
    JS.Keeps P (JS.eval x) := by
  intro s h
  cases x <;> exact h

theorem keeps_seq {α β : Type} (P : State → Prop) (x : JS α) (f : α → JS β)
    (hx : JS.Keeps P x) (hf : ∀ a, JS.Keeps P (f a)) : JS.Keeps P (x >>= f) := by
  intro s h
  have h1 := hx s h
  show P (JS.seq x f s).state
  unfold JS.seq
  cases hxs : x s with
  | normal a s1 =>
    rw [hxs] at h1
    exact hf a s1 h1
  | abrupt e s1 =>
    rw [hxs] at h1
    exact h1

theorem keeps_tryCatch (P : State → Prop) (body : JS Unit) (handler : JSError → JS Unit)
    (hb : JS.Keeps P body) (hh : ∀ e, JS.Keeps P (handler e)) :
    JS.Keeps P (JS.tryCatch body handler) := by
  intro s h
  have h1 := hb s h
  unfold JS.tryCatch
  cases hbs : body s with
  | normal a s1 =>
    rw [hbs] at h1
    exact h1
  | abrupt e s1 =>
    rw [hbs] at h1
    exact hh e s1 h1

theorem keeps_ite {α : Type} (P : State → Prop) (c : Prop) [Decidable c] (x y : JS α)
    (hx : JS.Keeps P x) (hy : JS.Keeps P y) : JS.Keeps P (if c then x else y) := by
  by_cases hc : c
  · rw [if_pos hc]; exact hx
  · rw [if_neg hc]; exact hy

theorem keeps_modify (P : State → Prop) (f : State → State) (hf : ∀ s, P s → P (f s)) :
    JS.Keeps P (JS.modify f) :=
  fun s h => hf s h

theorem keeps_setStatus (P : State → Prop) (hF : Framed P) (v : JSVal) :
    JS.Keeps P (setStatus v) := by
  intro s h
  unfold setStatus
  cases hs : s.statusEl with
  | none => exact h
  | some old =>
    cases ht : textContentOf v with
    | error e => exact h
    | ok t => exact hF s _ rfl rfl rfl rfl h

theorem keeps_toggle (P : State → Prop) (hT : ∀ r s, P s → P (toggled r s)) (r : Bool) :
    JS.Keeps P (toggle r) := by
  intro s h
  rw [toggle_eq]
  exact hT r s h

theorem keeps_console_error (P : State → Prop) (hF : Framed P) (e : JSError) :
    JS.Keeps P (console_error e) :=
  keeps_modify P _ (fun s h => hF s _ rfl rfl rfl rfl h)

theorem keeps_fetch (P : State → Prop) (hF : Framed P) (c : Cmd) : JS.Keeps P (fetch c) :=
  keeps_modify P _ (fun s h => hF s _ rfl rfl rfl rfl h)

theorem keeps_navigate (P : State → Prop) (hF : Framed P) (url : String) :
    JS.Keeps P (navigate url) :=
  keeps_modify P _ (fun s h => hF s _ rfl rfl rfl rfl h)

theorem keeps_appendLive (P : State → Prop) (hF : Framed P) (t : String) :
    JS.Keeps P (appendLive t) := by
  apply keeps_modify
  intro s h
  cases hl : s.liveEl with
  | none => simpa [hl] using h
  | some live => exact hF s _ (by simp [hl]) (by simp [hl]) (by simp [hl]) (by simp [hl]) h

theorem keeps_setChroma (P : State → Prop) (hF : Framed P) (t : String) :
    JS.Keeps P (setChroma t) := by
  apply keeps_modify
  intro s h
  cases hl : s.chromaEl with
  | none => simpa [hl] using h
  | some live => exact hF s _ (by simp [hl]) (by simp [hl]) (by simp [hl]) (by simp [hl]) h

/-- Every click handler and the message handler keep every framed property. -/
theorem handlers_keep (P : State → Prop) (hF : Framed P) :
    JS.Keeps P startBtn_click ∧ JS.Keeps P stopBtn_click ∧ JS.Keeps P afterBtn_click ∧
    JS.Keeps P summBtn_click ∧ (∀ data, JS.Keeps P (ws_onmessage data)) := by
  refine ⟨?_, ?_, ?_, ?_, ?_⟩
  · unfold startBtn_click
    repeat (first
      | apply keeps_tryCatch | apply keeps_seq | exact keeps_setStatus P hF _
      | exact keeps_fetch P hF _ | exact keeps_console_error P hF _ | intro _)
  · unfold stopBtn_click
    repeat (first
      | apply keeps_tryCatch | apply keeps_seq | exact keeps_setStatus P hF _
      | exact keeps_fetch P hF _ | exact keeps_console_error P hF _ | intro _)
  · unfold afterBtn_click
    repeat (first
      | apply keeps_tryCatch | apply keeps_seq | exact keeps_setStatus P hF _
      | exact keeps_fetch P hF _ | exact keeps_console_error P hF _ | intro _)
  · unfold summBtn_click
    repeat (first
      | apply keeps_tryCatch | apply keeps_seq | exact keeps_setStatus P hF _
      | exact keeps_fetch P hF _ | exact keeps_console_error P hF _ | intro _)
  · intro data
    unfold ws_onmessage statusBranch
    repeat (first
      | apply keeps_tryCatch | apply keeps_seq | apply keeps_ite
      | exact keeps_setStatus P hF _ | exact keeps_eval P _ | exact keeps_ret P _
      | exact keeps_appendLive P hF _ | exact keeps_setChroma P hF _ | intro _)

/-- Every continuation keeps every framed property that `toggle` keeps. -/
theorem settled_keeps (P : State → Prop) (hF : Framed P)
    (hT : ∀ r s, P s → P (toggled r s)) (c : Cmd) (o : FetchOutcome) :
    JS.Keeps P (settled c o) := by
  cases c
  · unfold settled startBtn_settled
    repeat (first
      | apply keeps_tryCatch | apply keeps_seq | apply keeps_ite
      | exact keeps_setStatus P hF _ | exact keeps_eval P _ | exact keeps_toggle P hT _
      | exact keeps_console_error P hF _ | intro _)
  · unfold settled stopBtn_settled
    repeat (first
      | apply keeps_tryCatch | apply keeps_seq | apply keeps_ite
      | exact keeps_setStatus P hF _ | exact keeps_eval P _ | exact keeps_toggle P hT _
      | exact keeps_console_error P hF _ | intro _)
  · exact keeps_ret P ()
  · unfold settled summBtn_settled
    repeat (first
      | apply keeps_tryCatch | apply keeps_seq | apply keeps_ite
      | exact keeps_setStatus P hF _ | exact keeps_eval P _ | exact keeps_navigate P hF _
      | exact keeps_console_error P hF _ | intro _)

/-- Clicks and inbound frames keep every framed property. -/
theorem step_click_keeps (P : State → Prop) (hF : Framed P) (s : State) (h : P s) :
    (∀ c, P (step (.click c) s)) ∧ (∀ i data, P (step (.wsMessage i data) s)) := by
  obtain ⟨h1, h2, h3, h4, h6⟩ := handlers_keep P hF
  refine ⟨?_, ?_⟩
  · intro c
    cases c
    · show P (if s.startBtn.isSome then (startBtn_click s).state else s)
      split
      · exact h1 s h
      · exact h
    · show P (if s.stopBtn.isSome then (stopBtn_click s).state else s)
      split
      · exact h2 s h
      · exact h
    · show P (if s.afterBtn then (afterBtn_click s).state else s)
      split
      · exact h3 s h
      · exact h
    · show P (if s.summBtn then (summBtn_click s).state else s)
      split
      · exact h4 s h
      · exact h
  · intro i data
    show P (if connIn s i [.opened] then (ws_onmessage data s).state else s)
    split
    · exact h6 data s h
    · exact h

/-- Clicks, settled requests and inbound frames keep every framed property that
`toggle` keeps. -/
theorem step_page_keeps (P : State → Prop) (hF : Framed P)
    (hT : ∀ r s, P s → P (toggled r s)) (s : State) (h : P s) :
    (∀ c, P (step (.click c) s)) ∧ (∀ c o, P (step (.settle c o) s)) ∧
    (∀ i data, P (step (.wsMessage i data) s)) := by
  obtain ⟨h1, h3⟩ := step_click_keeps P hF s h
  refine ⟨h1, ?_, h3⟩
  intro c o
  show P (if c ∈ s.inflight then
    (settled c o { s with inflight := s.inflight.erase c }).state else s)
  split
  · exact settled_keeps P hF hT c o _ (hF s _ rfl rfl rfl rfl h)
  · exact h

/-! ## The reconnecting socket -/

theorem connIn_iff (s : State) (i : Nat) (states : List ReadyState) :
    connIn s i states = true ↔ ∃ c, s.conns[i]? = some c ∧ c.readyState ∈ states := by
  unfold connIn
  cases h : s.conns[i]? with
  | none => simp
  | some c => simp

theorem countP_modify_same (f : Conn → Conn) (cs : List Conn) (i : Nat)
    (hf : ∀ c, cs[i]? = some c → (f c).isLive = c.isLive) :
    (cs.modify f i).countP Conn.isLive = cs.countP Conn.isLive := by
  induction cs generalizing i with
  | nil => simp
  | cons c rest ih =>
    cases i with
    | zero =>
      have := hf c (by simp)
      simp [List.countP_cons, this]
    | succ j =>
      have := ih j (fun c hc => hf c (by simpa using hc))
      simp [List.countP_cons, this]

theorem countP_modify_close (f : Conn → Conn) (hf : ∀ c, (f c).isLive = false)
    (cs : List Conn) (i : Nat) (c : Conn) (hi : cs[i]? = some c) (hc : c.isLive = true) :
    (cs.modify f i).countP Conn.isLive + 1 = cs.countP Conn.isLive := by
  induction cs generalizing i with
  | nil => simp at hi
  | cons d rest ih =>
    cases i with
    | zero =>
      simp at hi
      subst hi
      simp [List.countP_cons, hf, hc]
    | succ j =>
      simp at hi
      have := ih j hi
      simp [List.countP_cons]
      omega

theorem channelInv_framed : Framed ChannelInv := by
  intro s s1 _ _ hc ht h
  unfold ChannelInv liveCount at *
  rw [hc, ht]
  exact h

theorem channelInv_toggled (r : Bool) (s : State) (h : ChannelInv s) :
    ChannelInv (toggled r s) := by
  unfold ChannelInv liveCount at *
  simpa using h

theorem step_wsClose_eq (s : State) (i : Nat)
    (h : connIn s i [.connecting, .opened] = true) :
    step (.wsClose i) s
      = { setReadyState i .closed s with timers := s.timers ++ [reconnectDelay] } := by
  simp [step, h, ws_onclose, setTimeout, JS.modify, Completion.state, setReadyState]

theorem step_timeout_eq (s : State) (k : Nat) (h : k < s.timers.length) :
    step (.timeout k) s
      = { s with
          timers := s.timers.eraseIdx k
          conns := s.conns ++
            [⟨(if s.protocol = "https:" then "wss" else "ws") ++ "://" ++ s.host ++ "/ws",
              .connecting⟩] } := by
  simp [step, h, connectWS, JS.modify, Completion.state]

theorem channelInv_step (e : Event) (s : State) (h : ChannelInv s) : ChannelInv (step e s) := by
  obtain ⟨h1, h2, h3⟩ := step_page_keeps ChannelInv channelInv_framed channelInv_toggled s h
  cases e with
  | click c => exact h1 c
  | settle c o => exact h2 c o
  | wsMessage i data => exact h3 i data
  | wsOpen i =>
    by_cases hc : connIn s i [.connecting] = true
    · obtain ⟨c, hi, hr⟩ := (connIn_iff s i _).1 hc
      simp only [List.mem_singleton] at hr
      have hcount := countP_modify_same (fun c => { c with readyState := .opened }) s.conns i
        (by
          intro d hd
          rw [hi] at hd
          cases hd
          simp only [Conn.isLive, hr]
          decide)
      simp only [step, hc, if_true]
      unfold ChannelInv liveCount setReadyState at *
      simp only [hcount]
      exact h
    · simp only [step, hc]
      exact h
  | wsClose i =>
    by_cases hc : connIn s i [.connecting, .opened] = true
    · obtain ⟨c, hi, hr⟩ := (connIn_iff s i _).1 hc
      have hlive : c.isLive = true := by
        simp only [List.mem_cons, List.mem_singleton, List.not_mem_nil, or_false] at hr
        rcases hr with hr | hr <;> simp [Conn.isLive, hr]
      have hcount := countP_modify_close (fun c => { c with readyState := .closed })
        (fun _ => rfl) s.conns i c hi hlive
      rw [step_wsClose_eq s i hc]
      unfold ChannelInv liveCount setReadyState at *
      simp only [List.length_append, List.length_singleton]
      omega
    · simp only [step, hc]
      exact h
  | timeout k =>
    by_cases hk : k < s.timers.length
    · rw [step_timeout_eq s k hk]
      unfold ChannelInv liveCount at *
      simp only [List.countP_append, List.length_eraseIdx, hk, if_true]
      have : List.countP Conn.isLive
          [(⟨(if s.protocol = "https:" then "wss" else "ws") ++ "://" ++ s.host ++ "/ws",
            .connecting⟩ : Conn)] = 1 := rfl
      omega
    · simp only [step, hk]
      exact h

theorem channelInv_run (es : List Event) (s : State) (h : ChannelInv s) :
    ChannelInv (run es s) := by
  induction es generalizing s with
  | nil => exact h
  | cons e rest ih => exact ih (step e s) (channelInv_step e s h)

theorem channelInv_pageLoad (p : State) (hconns : p.conns = []) (htimers : p.timers = []) :
    ChannelInv (pageLoad p).state := by
  unfold pageLoad
  split <;> simp [ChannelInv, liveCount, connectWS, JS.modify, Completion.state, hconns, htimers,
    Conn.isLive]

theorem eraseIdx_length_append {α : Type} (l : List α) (a : α) :
    (l ++ [a]).eraseIdx l.length = l := by
  induction l with
  | nil => rfl
  | cons x rest ih => simp [List.eraseIdx, ih]

theorem conns_length_step (e : Event) (s : State)
    (h : s.conns.length < (step e s).conns.length) : ∃ k, e = .timeout k ∧ k < s.timers.length := by
  have hP : Framed (fun s1 => s1.conns.length = s.conns.length) := by
    intro a b _ _ hc _ ha
    rw [hc]; exact ha
  obtain ⟨h1, h2, h3⟩ := step_page_keeps _ hP (fun r a ha => by simpa using ha) s rfl
  cases e with
  | click c => have := h1 c; omega
  | settle c o => have := h2 c o; omega
  | wsMessage i data => have := h3 i data; omega
  | wsOpen i =>
    by_cases hc : connIn s i [.connecting] = true
    · simp [step, hc, setReadyState] at h
    · simp [step, hc] at h
  | wsClose i =>
    by_cases hc : connIn s i [.connecting, .opened] = true
    · rw [step_wsClose_eq s i hc] at h
      simp [setReadyState] at h
    · simp [step, hc] at h
  | timeout k =>
    by_cases hk : k < s.timers.length
    · exact ⟨k, rfl, hk⟩
    · simp [step, hk] at h

/-- C9: the close of a socket that is connecting or open, in any state of the
page (so after any number of earlier closes). The close handler adds exactly one
timer to the pending ones, with the delay 1500 ms, and the socket is closed
afterwards; and when that timer fires, `connectWS` runs unconditionally: one new
socket is created, in the connecting state, and the timer is gone. No count of
attempts and no growing delay is kept anywhere in the state. -/
theorem close_schedules_one_reconnect (s : State) (i : Nat)
    (h : connIn s i [.connecting, .opened] = true) :
    (step (.wsClose i) s).timers = s.timers ++ [1500] ∧
    connIn (step (.wsClose i) s) i [.closed] = true ∧
    (step (.timeout s.timers.length) (step (.wsClose i) s)).timers = s.timers ∧
    (step (.timeout s.timers.length) (step (.wsClose i) s)).conns.length
      = s.conns.length + 1 ∧
    connIn (step (.timeout s.timers.length) (step (.wsClose i) s)) s.conns.length
      [.connecting] = true := by
  have hlen : s.timers.length < (step (.wsClose i) s).timers.length := by
    rw [step_wsClose_eq s i h]; simp
  obtain ⟨c, hi, _⟩ := (connIn_iff s i _).1 h
  refine ⟨?_, ?_, ?_, ?_, ?_⟩
  · rw [step_wsClose_eq s i h]; rfl
  · rw [step_wsClose_eq s i h]
    simp [connIn, setReadyState, hi]
  · rw [step_timeout_eq _ _ hlen, step_wsClose_eq s i h]
    exact eraseIdx_length_append s.timers reconnectDelay
  · rw [step_timeout_eq _ _ hlen, step_wsClose_eq s i h]
    simp [setReadyState]
  · rw [step_timeout_eq _ _ hlen, step_wsClose_eq s i h]
    simp [connIn, setReadyState]

theorem close_schedules_one_reconnect_witness :
    (step (.wsClose 0) (pageLoad samplePage).state).timers = [] ++ [1500] ∧
    connIn (step (.timeout 0) (step (.wsClose 0) (pageLoad samplePage).state)) 1
      [.connecting] = true :=
  have h := close_schedules_one_reconnect (pageLoad samplePage).state 0 rfl
  ⟨h.1, h.2.2.2.2⟩

/-- C10: every state reached from the page load (which makes the first
connection) by any sequence of events, closes and timer firings among them. At
most one socket is connecting or open, at most one reconnect timer is pending,
and never a live socket and a pending timer at once; and whenever an event
creates a socket, no socket is connecting or open at that moment, so every
earlier one has reached Closed. -/
theorem single_connection (p : State) (hconns : p.conns = []) (htimers : p.timers = [])
    (es : List Event) :
    liveCount (run es (pageLoad p).state) ≤ 1 ∧
    (run es (pageLoad p).state).timers.length ≤ 1 ∧
    ¬ (0 < liveCount (run es (pageLoad p).state) ∧
        0 < (run es (pageLoad p).state).timers.length) ∧
    ∀ e, (run es (pageLoad p).state).conns.length
        < (step e (run es (pageLoad p).state)).conns.length →
      liveCount (run es (pageLoad p).state) = 0 := by
  have hinv : ChannelInv (run es (pageLoad p).state) :=
    channelInv_run es _ (channelInv_pageLoad p hconns htimers)
  unfold ChannelInv at hinv
  refine ⟨by omega, by omega, by omega, ?_⟩
  intro e he
  obtain ⟨k, _, hk⟩ := conns_length_step e _ he
  omega

theorem single_connection_witness :
    liveCount (run [.wsOpen 0, .wsClose 0, .timeout 0, .wsClose 1] (pageLoad samplePage).state)
      ≤ 1 ∧
    (run [.wsOpen 0, .wsClose 0, .timeout 0, .wsClose 1] (pageLoad samplePage).state).timers.length
      ≤ 1 :=
  have h := single_connection samplePage rfl rfl [.wsOpen 0, .wsClose 0, .timeout 0, .wsClose 1]
  ⟨h.1, h.2.1⟩

/-! ## RunState and the two buttons -/

theorem paired_framed : Framed Paired := by
  intro s s1 h1 h2 _ _ h
  obtain ⟨r, ha, hb⟩ := h
  exact ⟨r, by rw [h1, ha], by rw [h2, hb]⟩

theorem paired_toggled (r : Bool) (s : State) (h : Paired s) : Paired (toggled r s) := by
  obtain ⟨r0, ha, hb⟩ := h
  exact ⟨r, (toggled_present r _ _ s ha hb).1, (toggled_present r _ _ s ha hb).2⟩

/-- Socket and timer events leave the page elements alone. -/
theorem step_channel_buttons (s : State) :
    (∀ i, (step (.wsOpen i) s).startBtn = s.startBtn ∧ (step (.wsOpen i) s).stopBtn = s.stopBtn) ∧
    (∀ i, (step (.wsClose i) s).startBtn = s.startBtn ∧ (step (.wsClose i) s).stopBtn = s.stopBtn) ∧
    (∀ k, (step (.timeout k) s).startBtn = s.startBtn ∧ (step (.timeout k) s).stopBtn = s.stopBtn) := by
  refine ⟨?_, ?_, ?_⟩
  · intro i
    by_cases hc : connIn s i [.connecting] = true <;> simp [step, hc, setReadyState]
  · intro i
    by_cases hc : connIn s i [.connecting, .opened] = true
    · rw [step_wsClose_eq s i hc]; simp [setReadyState]
    · simp [step, hc]
  · intro k
    by_cases hk : k < s.timers.length
    · rw [step_timeout_eq s k hk]; simp
    · simp [step, hk]

theorem paired_step (e : Event) (s : State) (h : Paired s) : Paired (step e s) := by
  obtain ⟨h1, h2, h3⟩ := step_page_keeps Paired paired_framed paired_toggled s h
  obtain ⟨c1, c2, c3⟩ := step_channel_buttons s
  obtain ⟨r, ha, hb⟩ := h
  cases e with
  | click c => exact h1 c
  | settle c o => exact h2 c o
  | wsMessage i data => exact h3 i data
  | wsOpen i => exact ⟨r, by rw [(c1 i).1, ha], by rw [(c1 i).2, hb]⟩
  | wsClose i => exact ⟨r, by rw [(c2 i).1, ha], by rw [(c2 i).2, hb]⟩
  | timeout k => exact ⟨r, by rw [(c3 k).1, ha], by rw [(c3 k).2, hb]⟩

theorem paired_run (es : List Event) (s : State) (h : Paired s) : Paired (run es s) := by
  induction es generalizing s with
  | nil => exact h
  | cons e rest ih => exact ih (step e s) (paired_step e s h)

/-- C2: a page that has both buttons, with the start button disabled exactly
when the stop button is enabled at the outset (the markup of the page sets the
first state). After any sequence of events (clicks, settled requests, socket
opens, frames, closes, timers) the start button is enabled exactly when
RunState is not running and the stop button is enabled exactly when RunState is
running; the two are never both enabled and never both disabled. -/
theorem buttons_mirror_runstate (s0 : State) (r0 : Bool)
    (hstart : s0.startBtn = some r0) (hstop : s0.stopBtn = some (!r0)) (es : List Event) :
    (startEnabled (run es s0) ↔ RunState (run es s0) = some false) ∧
    (stopEnabled (run es s0) ↔ RunState (run es s0) = some true) ∧
    ¬ (startEnabled (run es s0) ∧ stopEnabled (run es s0)) ∧
    (startEnabled (run es s0) ∨ stopEnabled (run es s0)) := by
  obtain ⟨r, ha, hb⟩ := paired_run es s0 ⟨r0, hstart, hstop⟩
  unfold startEnabled stopEnabled RunState
  rw [ha, hb]
  cases r <;> simp

theorem buttons_mirror_runstate_witness :
    (stopEnabled (run [.click .start, .settle .start (.body (obj [("status", str "started")])),
        .click .stop, .settle .stop .rejected] samplePage) ↔
      RunState (run [.click .start, .settle .start (.body (obj [("status", str "started")])),
        .click .stop, .settle .stop .rejected] samplePage) = some true) ∧
    ¬ (startEnabled (run [.click .start, .settle .start (.body (obj [("status", str "started")])),
        .click .stop, .settle .stop .rejected] samplePage) ∧
      stopEnabled (run [.click .start, .settle .start (.body (obj [("status", str "started")])),
        .click .stop, .settle .stop .rejected] samplePage)) :=
  have h := buttons_mirror_runstate samplePage false rfl rfl
    [.click .start, .settle .start (.body (obj [("status", str "started")])),
      .click .stop, .settle .stop .rejected]
  ⟨h.2.1, h.2.2.1⟩

/-! ## RunState over a whole session -/

theorem keeps_eval_seq {α β : Type} (P : State → Prop) (x : Except JSError α) (f : α → JS β)
    (hf : ∀ a, x = .ok a → JS.Keeps P (f a)) : JS.Keeps P (JS.eval x >>= f) := by
  intro s h
  show P (JS.seq (JS.eval x) f s).state
  unfold JS.seq JS.eval
  cases x with
  | error e => exact h
  | ok a => exact hf a rfl s h

theorem awaitJson_ok (o : FetchOutcome) (js : JSVal) (h : awaitJson o = .ok js) :
    o = .body js := by
  cases o with
  | rejected => simp [awaitJson] at h
  | badBody => simp [awaitJson] at h
  | body v =>
    simp only [awaitJson, Except.ok.injEq] at h
    rw [h]

/-- The stop handler on the token `stopped`. -/
theorem stopBtn_settled_stopped (js v : JSVal) (s : State) (hget : js.get "status" = .ok v)
    (hv : v.strictEq "stopped" = true) :
    stopBtn_settled (.body js) s = .normal () (withStatus "Stoppet" (toggled false s)) := by
  simp [stopBtn_settled, JS.tryCatch, JS.bind_def, JS.seq, JS.eval, awaitJson, hget, hv,
    toggle_eq, setStatus_str]

/-- A reply its handler does not recognise: the handler keeps every framed
property, as it never reaches `toggle`. -/
theorem settled_unrecognised_keeps (P : State → Prop) (hF : Framed P) (c : Cmd)
    (o : FetchOutcome) (h : recognised c o = none) : JS.Keeps P (settled c o) := by
  cases c with
  | start =>
    unfold settled startBtn_settled
    apply keeps_tryCatch
    · apply keeps_eval_seq
      intro js hjs
      apply keeps_eval_seq
      intro v hv
      have ho := awaitJson_ok o js hjs
      subst ho
      have hcond : ¬ ((v.strictEq "started" || v.strictEq "already_running") = true) := by
        intro hc
        simp [recognised, hv, hc] at h
      rw [if_neg hcond]
      apply keeps_seq
      · exact keeps_eval P _
      · intro _; exact keeps_setStatus P hF _
    · intro e
      apply keeps_seq
      · exact keeps_setStatus P hF _
      · intro _; exact keeps_console_error P hF _
  | stop =>
    unfold settled stopBtn_settled
    apply keeps_tryCatch
    · apply keeps_eval_seq
      intro js hjs
      apply keeps_eval_seq
      intro v hv
      have ho := awaitJson_ok o js hjs
      subst ho
      have hcond : ¬ (v.strictEq "stopped" = true) := by
        intro hc
        simp [recognised, hv, hc] at h
      rw [if_neg hcond]
      apply keeps_seq
      · exact keeps_eval P _
      · intro _; exact keeps_setStatus P hF _
    · intro e
      apply keeps_seq
      · exact keeps_setStatus P hF _
      · intro _; exact keeps_console_error P hF _
  | after => exact keeps_ret P ()
  | summ =>
    unfold settled summBtn_settled
    repeat (first
      | apply keeps_tryCatch | apply keeps_seq | apply keeps_ite
      | exact keeps_setStatus P hF _ | exact keeps_eval P _ | exact keeps_navigate P hF _
      | exact keeps_console_error P hF _ | intro _)

/-- A reply its handler recognises, on a page with both buttons: the buttons
are set as the reply indicates. -/
theorem settled_recognised_buttons (c : Cmd) (o : FetchOutcome) (r a b : Bool) (s : State)
    (h : recognised c o = some r) (ha : s.startBtn = some a) (hb : s.stopBtn = some b) :
    (settled c o s).state.startBtn = some r ∧ (settled c o s).state.stopBtn = some (!r) := by
  cases c with
  | start =>
    cases o with
    | rejected => simp [recognised] at h
    | badBody => simp [recognised] at h
    | body js =>
      cases hget : js.get "status" with
      | error e => simp [recognised, hget] at h
      | ok v =>
        by_cases hc : (v.strictEq "started" || v.strictEq "already_running") = true
        · simp only [recognised, hget, hc, if_true, Option.some.injEq] at h
          subst h
          have hv : v.strictEq "started" = true ∨ v.strictEq "already_running" = true := by
            simpa using hc
          simp only [settled, startBtn_settled_running js v s hget hv, Completion.state,
            withStatus_startBtn, withStatus_stopBtn]
          exact toggled_present true a b s ha hb
        · simp [recognised, hget, hc] at h
  | stop =>
    cases o with
    | rejected => simp [recognised] at h
    | badBody => simp [recognised] at h
    | body js =>
      cases hget : js.get "status" with
      | error e => simp [recognised, hget] at h
      | ok v =>
        by_cases hc : v.strictEq "stopped" = true
        · simp only [recognised, hget, hc, if_true, Option.some.injEq] at h
          subst h
          simp only [settled, stopBtn_settled_stopped js v s hget hc, Completion.state,
            withStatus_startBtn, withStatus_stopBtn]
          exact toggled_present false a b s ha hb
        · simp [recognised, hget, hc] at h
  | after => cases o <;> simp [recognised] at h
  | summ => cases o <;> simp [recognised] at h

theorem lastRecognised_cons_getD (r : Cmd × FetchOutcome) (rs : List (Cmd × FetchOutcome))
    (a : Bool) :
    (lastRecognised (r :: rs)).getD a = (lastRecognised rs).getD ((recognised r.1 r.2).getD a) := by
  have h : lastRecognised (r :: rs)
      = (match lastRecognised rs with
        | some x => some x
        | none => recognised r.1 r.2) := rfl
  rw [h]
  cases lastRecognised rs <;> cases recognised r.1 r.2 <;> rfl

/-- Events other than a delivered reply leave both buttons as they are. -/
theorem step_other_buttons (e : Event) (s : State)
    (he : ∀ c o, e = .settle c o → c ∉ s.inflight) :
    (step e s).startBtn = s.startBtn ∧ (step e s).stopBtn = s.stopBtn := by
  have hP : Framed (fun s1 => s1.startBtn = s.startBtn ∧ s1.stopBtn = s.stopBtn) := by
    intro x y h1 h2 _ _ hx
    exact ⟨by rw [h1, hx.1], by rw [h2, hx.2]⟩
  obtain ⟨h1, h3⟩ := step_click_keeps _ hP s ⟨rfl, rfl⟩
  obtain ⟨c1, c2, c3⟩ := step_channel_buttons s
  cases e with
  | click c => exact h1 c
  | settle c o =>
    have := he c o rfl
    simp [step, this]
  | wsMessage i data => exact h3 i data
  | wsOpen i => exact c1 i
  | wsClose i => exact c2 i
  | timeout k => exact c3 k

theorem runstate_tracks (es : List Event) :
    ∀ (s : State) (a b : Bool), s.startBtn = some a → s.stopBtn = some b →
      RunState (run es s) = some ((lastRecognised (delivered es s)).getD a) := by
  induction es with
  | nil =>
    intro s a b ha _
    simpa [run, delivered, lastRecognised, RunState] using ha
  | cons e rest ih =>
    intro s a b ha hb
    have hrun : run (e :: rest) s = run rest (step e s) := rfl
    rw [hrun]
    by_cases hd : ∃ c o, e = .settle c o ∧ c ∈ s.inflight
    · obtain ⟨c, o, rfl, hin⟩ := hd
      have hdel : delivered (.settle c o :: rest) s
          = (c, o) :: delivered rest (step (.settle c o) s) := by
        simp [delivered, hin]
      have hstep : step (.settle c o) s
          = (settled c o { s with inflight := s.inflight.erase c }).state := by
        simp [step, hin]
      rw [hdel, lastRecognised_cons_getD]
      cases hr : recognised c o with
      | none =>
        have hP : Framed (fun s1 => s1.startBtn = some a ∧ s1.stopBtn = some b) := by
          intro x y h1 h2 _ _ hx
          exact ⟨by rw [h1, hx.1], by rw [h2, hx.2]⟩
        have hk := settled_unrecognised_keeps _ hP c o hr
          { s with inflight := s.inflight.erase c } ⟨ha, hb⟩
        rw [← hstep] at hk
        simpa [hr] using ih (step (.settle c o) s) a b hk.1 hk.2
      | some r =>
        have hk := settled_recognised_buttons c o r a b
          { s with inflight := s.inflight.erase c } hr ha hb
        rw [← hstep] at hk
        simpa [hr] using ih (step (.settle c o) s) r (!r) hk.1 hk.2
    · have hno : ∀ c o, e = .settle c o → c ∉ s.inflight := by
        intro c o he hin
        exact hd ⟨c, o, he, hin⟩
      obtain ⟨h1, h2⟩ := step_other_buttons e s hno
      have hdel : delivered (e :: rest) s = delivered rest (step e s) := by
        cases e with
        | settle c o =>
          have := hno c o rfl
          simp [delivered, this]
        | click c => rfl
        | wsOpen i => rfl
        | wsMessage i data => rfl
        | wsClose i => rfl
        | timeout k => rfl
      rw [hdel]
      exact ih (step e s) a b (by rw [h1, ha]) (by rw [h2, hb])

/-- C1 as stated fails on two Start clicks made before either request settled
(the start button is enabled at both), the first answered `started` and the
second `stopped`: the last reply with one of the three tokens is `stopped`, yet
RunState is running, as the start handler does not recognise `stopped`. -/
theorem runstate_spec_reading_fails :
    ¬ (RunState (run doubleStart samplePage) = some true ↔
        specLast (delivered doubleStart samplePage) = some true) := by
  decide

/-- C1, amended: on a page with both buttons, after any sequence of events,
RunState is what the last reply recognised by the handler that received it
indicates (running for `started` or `already_running` in answer to Start, not
running for `stopped` in answer to Stop), and it is what it was at the outset
when no reply was recognised; and a reply that its handler does not recognise
leaves both buttons exactly as they were. -/
theorem runstate_follows_last_recognised (s : State) (a b : Bool)
    (hstart : s.startBtn = some a) (hstop : s.stopBtn = some b) (es : List Event) :
    RunState (run es s) = some ((lastRecognised (delivered es s)).getD a) ∧
    (RunState (run es s) = some true ↔
      lastRecognised (delivered es s) = some true ∨
        (lastRecognised (delivered es s) = none ∧ a = true)) ∧
    (∀ s1 c o, recognised c o = none →
      RunState (step (.settle c o) s1) = RunState s1 ∧
      (step (.settle c o) s1).stopBtn = s1.stopBtn) := by
  have h1 := runstate_tracks es s a b hstart hstop
  refine ⟨h1, ?_, ?_⟩
  · rw [h1]
    cases lastRecognised (delivered es s) with
    | none => simp
    | some x => simp
  · intro s1 c o hr
    have hP : Framed (fun s2 => s2.startBtn = s1.startBtn ∧ s2.stopBtn = s1.stopBtn) := by
      intro x y h1 h2 _ _ hx
      exact ⟨by rw [h1, hx.1], by rw [h2, hx.2]⟩
    by_cases hin : c ∈ s1.inflight
    · have hk := settled_unrecognised_keeps _ hP c o hr
        { s1 with inflight := s1.inflight.erase c } ⟨rfl, rfl⟩
      have hstep : step (.settle c o) s1
          = (settled c o { s1 with inflight := s1.inflight.erase c }).state := by
        simp [step, hin]
      rw [hstep]
      exact hk
    · have hstep : step (.settle c o) s1 = s1 := by simp [step, hin]
      rw [hstep]
      exact ⟨rfl, rfl⟩

theorem runstate_follows_last_recognised_witness :
    RunState (run doubleStart samplePage)
      = some ((lastRecognised (delivered doubleStart samplePage)).getD false) ∧
    lastRecognised (delivered doubleStart samplePage) = some true :=
  ⟨(runstate_follows_last_recognised samplePage false true rfl rfl doubleStart).1, by decide⟩

end Control
